import Mathlib

/-!
Verification of the request classification, caching and substitution engine
of `src/1.js` (an outbound-traffic interceptor).  The JavaScript source is
shallowly embedded: pure helper functions become Lean functions, the
mutable `URLClassificationCache` singleton becomes explicit state passing
over a `CacheState` record, JS 32-bit integer arithmetic becomes `Int`
with an explicit truncation to the signed 32-bit range, and JS strings are
modelled by `String` (`toLowerCase` is modelled on the ASCII range, and
`charCodeAt` by the character's code point, which agrees on the basic
multilingual plane).
-/

/-! ## String helpers (models of the JS string primitives used) -/

/-- Model of JS `String.prototype.toLowerCase` on one character (ASCII range). -/
def lowerChar (c : Char) : Char :=
  if 65 ≤ c.toNat ∧ c.toNat ≤ 90 then Char.ofNat (c.toNat + 32) else c

/-- Model of JS `String.prototype.toLowerCase` (ASCII range). -/
def lowerStr (s : String) : String :=
  ⟨s.data.map lowerChar⟩

/-- `isPrefixOfCL p l` is true when `p` is a prefix of `l`. -/
def isPrefixOfCL : List Char → List Char → Bool
  | [], _ => true
  | _ :: _, [] => false
  | c :: cs, d :: ds => c = d && isPrefixOfCL cs ds

/-- `containsSub l p` is true when `p` occurs contiguously inside `l`. -/
def containsSub : List Char → List Char → Bool
  | [], p => isPrefixOfCL p []
  | c :: rest, p => isPrefixOfCL p (c :: rest) || containsSub rest p

/-- Model of JS `String.prototype.includes`. -/
def strContains (s pat : String) : Bool :=
  containsSub s.data pat.data

/-! ## 32-bit arithmetic (models of JS `<<`, `&`, `ToInt32`) -/

/-- JS `ToInt32`: wrap an integer into the signed 32-bit range. -/
def toInt32 (n : Int) : Int :=
  (n + 2 ^ 31) % 2 ^ 32 - 2 ^ 31

/-- One step of the rolling hash `hash = ((hash << 5) - hash) + c; hash = hash & hash`
used both by `FeatureVectorSpoofer.calculateHash` and by
`URLClassificationCache.generateCacheKey` in the source. -/
def hashStep (h : Int) (c : Nat) : Int :=
  toInt32 (toInt32 (toInt32 h * 32) - h + (c : Int))

/-! ## Pattern tables (transcribed from the top of `src/1.js`) -/

/-- `TELEMETRY_PATTERNS` from the source (commented-out entries omitted,
exactly as the running code sees the array). -/
def TELEMETRY_PATTERNS : List String :=
  ["record-session-events", "report-error", "record-request-events",
   "record-user-events", "record-preference-sample", "chat-feedback",
   "completion-feedback", "next-edit-feedback", "analytics", "telemetry",
   "usage-statistics", "user-stats", "event-logging", "data-collection",
   "data-gathering", "data-submission", "monitoring-data", "observation-data"]

/-- `PRECISE_TELEMETRY_ENDPOINTS` from the source. -/
def PRECISE_TELEMETRY_ENDPOINTS : List String :=
  ["/record-session-events", "/record-request-events", "/record-user-events",
   "/record-preference-sample", "/chat-feedback", "/completion-feedback",
   "/next-edit-feedback", "/analytics", "/telemetry", "/usage", "/stats",
   "segment.io", "api.segment.io"]

/-- `ESSENTIAL_ENDPOINTS` from the source. -/
def ESSENTIAL_ENDPOINTS : List String :=
  ["report-feature-vector", "next-edit-stream", "batch-upload", "memorize",
   "completion", "chat-stream", "subscription-info", "get-models", "token",
   "codebase-retrieval", "agents/", "remote-agents", "list-stream",
   "augment-api", "augment-backend", "workspace-context", "symbol-index",
   "blob-upload", "codebase-upload", "file-sync", "is-user-configured",
   "list-repos", "d16.api.augmentcode.com", "client-metrics", "users/me",
   "api/v1/users/me", "clawcloudrun.com",
   "nlkxyddsfbdf.ap-southeast-1.clawcloudrun.com", "/proxy/gemini/",
   "streamGenerateContent", "generateContent", "/v1beta/models/",
   "gemini-2.5-pro"]

/-- `CODE_INDEXING_PATTERNS` from the source (the enhanced whitelist). -/
def CODE_INDEXING_PATTERNS : List String :=
  ["checkpoint-blobs", "batch-upload", "codebase-retrieval", "file-sync",
   "workspace-context", "symbol-index", "blob-upload", "codebase-upload",
   "agents/", "augment-api", "augment-backend"]

/-- `enhancedBlockedPatterns` from the source. -/
def enhancedBlockedPatterns : List String :=
  ["bug_report", "error_report", "crash_report", "diagnostic_data",
   "segment.io", "api.segment.io", "/v1/batch", "segment",
   "writeKey", "analytics.track", "analytics.identify",
   "user_id", "session_id", "anonymous_id", "device_id",
   "fingerprint", "tenant_id", "client_id"]

/-- `INTERCEPT_PATTERNS = [...TELEMETRY_PATTERNS, ...enhancedBlockedPatterns]`. -/
def INTERCEPT_PATTERNS : List String :=
  TELEMETRY_PATTERNS ++ enhancedBlockedPatterns

/-- The `importantPatterns` array local to `shouldInterceptUrl`. -/
def importantPatterns : List String :=
  ["vscode-webview://", "vscode-file://", "vscode-resource://",
   "localhost:", "127.0.0.1:", "file://", "data:", "blob:",
   "chrome-extension://", "moz-extension://", "ms-browser-extension://"]

/-- `INTERCEPTOR_CONFIG.dataProtection.enableEnhancedWhitelist` (constant in the source). -/
def enableEnhancedWhitelist : Bool := true

/-- `INTERCEPTOR_CONFIG.dataProtection.enableFeatureVectorSpoofer` (constant in the source). -/
def enableFeatureVectorSpoofer : Bool := true

/-- `patterns.some(p => urlLower.includes(p.toLowerCase()))`, the matcher shape
used by every tier check in `shouldInterceptUrl`. -/
def matchesAnyLowered (sLower : String) (patterns : List String) : Bool :=
  patterns.any fun p => strContains sLower (lowerStr p)

/-- `patterns.some(p => urlLower.includes(p))`, used for `importantPatterns`
(whose entries are already lower case in the source). -/
def matchesAnyRaw (sLower : String) (patterns : List String) : Bool :=
  patterns.any fun p => strContains sLower p

/-! ## The classifier -/

/-- The decision produced by classification: the source builds
`{ shouldIntercept, reason }` objects. -/
structure Decision where
  shouldIntercept : Bool
  reason : String
deriving DecidableEq, Repr

/-- The pure classification performed by `shouldInterceptUrl` on a cache miss
(`src/1.js`, lines 1927-1992).  The source mutates local variables
`shouldIntercept` / `reason`; here each assignment path returns its final
value.  The enhanced-whitelist (`CODE_INDEXING_PATTERNS`) branch of the
source leaves `shouldIntercept` at `false` and sets a `reason` that every
later branch overwrites, so it cannot change the returned decision; it is
kept here as the dead binding `_isCodeIndexing` to mirror the control flow. -/
def classifyUrl (url : String) : Decision :=
  let urlLower := lowerStr url
  if matchesAnyLowered urlLower ESSENTIAL_ENDPOINTS then
    ⟨false, "必要端点保护"⟩
  else
    let _isCodeIndexing :=
      enableEnhancedWhitelist && matchesAnyLowered urlLower CODE_INDEXING_PATTERNS
    if matchesAnyLowered urlLower INTERCEPT_PATTERNS then
      if matchesAnyRaw urlLower importantPatterns then
        ⟨false, "重要功能URL保护"⟩
      else
        ⟨true, "匹配拦截模式"⟩
    else
      ⟨false, "未匹配拦截模式"⟩

/-! ## The decision cache (`URLClassificationCache`) -/

/-- A JS value passed as the `data` argument: either a string or some
non-string value.  `generateCacheKey` only distinguishes nonempty strings
from everything else. -/
inductive JSData where
  | str (s : String)
  | nonString
deriving DecidableEq, Repr

/-- One stored cache entry: the source spreads the decision into an object
together with `timestamp: Date.now()` and `url`. -/
structure CacheEntry where
  decision : Decision
  timestamp : Nat
  url : String
deriving DecidableEq, Repr

/-- The mutable state of the `URLClassificationCache` singleton.  The JS
`Map` is modelled as an association list in insertion order. -/
structure CacheState where
  cache : List (String × CacheEntry)
  hits : Nat
  misses : Nat
  totalRequests : Nat
  maxCacheSize : Nat
deriving DecidableEq, Repr

/-- JS `Map.prototype.get`/`has`: first (unique) binding of the key. -/
def mapGet (k : String) : List (String × CacheEntry) → Option CacheEntry
  | [] => none
  | (k', v) :: rest => if k' = k then some v else mapGet k rest

/-- JS `Map.prototype.set`: update in place (keeping insertion position)
when the key is present, append otherwise. -/
def mapSet (k : String) (v : CacheEntry) : List (String × CacheEntry) → List (String × CacheEntry)
  | [] => [(k, v)]
  | (k', v') :: rest => if k' = k then (k, v) :: rest else (k', v') :: mapSet k v rest

/-- JS `Map.prototype.delete`. -/
def mapDelete (k : String) : List (String × CacheEntry) → List (String × CacheEntry)
  | [] => []
  | (k', v') :: rest => if k' = k then rest else (k', v') :: mapDelete k rest

/-- `this.cache.delete(this.cache.keys().next().value)`: delete the
earliest-inserted key (a no-op on an empty map, where `next().value` is
`undefined`). -/
def cacheEvict (l : List (String × CacheEntry)) : List (String × CacheEntry) :=
  match l with
  | [] => l
  | (k, _) :: _ => mapDelete k l

/-- `URLClassificationCache.generateCacheKey`: the key is the URL, plus
`"_" + hash` of the first 100 characters when `data` is a nonempty string. -/
def generateCacheKey (url : String) (data : JSData) : String :=
  match data with
  | .str s =>
      if s.length > 0 then
        url ++ "_" ++ toString ((s.data.take 100).foldl (fun h c => hashStep h c.toNat) 0)
      else url
  | .nonString => url

/-- `URLClassificationCache.get`: bumps `totalRequests` and either `hits`
or `misses`, returning the cached entry if the key is present. -/
def cacheGet (st : CacheState) (url : String) (data : JSData) : Option CacheEntry × CacheState :=
  let st1 := { st with totalRequests := st.totalRequests + 1 }
  match mapGet (generateCacheKey url data) st1.cache with
  | some e => (some e, { st1 with hits := st1.hits + 1 })
  | none => (none, { st1 with misses := st1.misses + 1 })

/-- `URLClassificationCache.set`: evict the earliest-inserted entry when
the table is at capacity, then insert/overwrite the key.  `now` stands for
`Date.now()`. -/
def cacheSet (st : CacheState) (url : String) (data : JSData) (d : Decision) (now : Nat) : CacheState :=
  let key := generateCacheKey url data
  let c1 := if st.cache.length ≥ st.maxCacheSize then cacheEvict st.cache else st.cache
  { st with cache := mapSet key { decision := d, timestamp := now, url := url } c1 }

/-- The initial state of the cache singleton: empty `Map`, zero stats,
`maxCacheSize: 1000`. -/
def initialCache : CacheState :=
  { cache := [], hits := 0, misses := 0, totalRequests := 0, maxCacheSize := 1000 }

/-- `shouldInterceptUrl(url, data = '')` (`src/1.js`, lines 1918-1998):
consult the cache; on a miss classify the URL, store the decision and
return it.  In the source the essential-endpoint branch stores and returns
early, and the remaining branches store and return at the end; both paths
perform exactly one `set` of the freshly computed decision, which is what
the miss branch below does. -/
def shouldInterceptUrl (st : CacheState) (url : String) (data : JSData) (now : Nat) : Bool × CacheState :=
  let g := cacheGet st url data
  match g.1 with
  | some cached => (cached.decision.shouldIntercept, g.2)
  | none =>
      let d := classifyUrl url
      (d.shouldIntercept, cacheSet g.2 url data d now)

/-! ## Classifier facts shared by several claims -/

/-- From the initial (empty) cache, `shouldInterceptUrl` returns the pure
classification of the URL. -/
theorem shouldInterceptUrl_initial_fst (url : String) (data : JSData) (now : Nat) :
    (shouldInterceptUrl initialCache url data now).1 = (classifyUrl url).shouldIntercept := by
  rfl

/-! ## C1 -/

/-- C1, counterexample: the address `localhost:checkpoint-blobs-analytics`
case-insensitively contains the Allowlist/code-indexing pattern
`checkpoint-blobs` and the Generic-Block keyword `analytics`, and contains
no Essential pattern and no Precise-Block pattern, yet `shouldInterceptUrl`
returns Allow (`false`), not Block: the address also matches the
`importantPatterns` guard (`localhost:`), which the claim does not account
for. -/
theorem allowlist_keyword_block_counterexample :
    matchesAnyLowered (lowerStr "localhost:checkpoint-blobs-analytics") CODE_INDEXING_PATTERNS = true ∧
    matchesAnyLowered (lowerStr "localhost:checkpoint-blobs-analytics") INTERCEPT_PATTERNS = true ∧
    matchesAnyLowered (lowerStr "localhost:checkpoint-blobs-analytics") ESSENTIAL_ENDPOINTS = false ∧
    matchesAnyLowered (lowerStr "localhost:checkpoint-blobs-analytics") PRECISE_TELEMETRY_ENDPOINTS = false ∧
    (shouldInterceptUrl initialCache "localhost:checkpoint-blobs-analytics" (.str "") 0).1 = false := by
  decide

/-- C1 (amended): for every address that case-insensitively contains both an
Allowlist/code-indexing pattern and a Generic-Block keyword, contains no
Essential pattern, no Precise-Block pattern, and additionally no
important-URL pattern (`vscode-webview://`, `localhost:`, `file://`, ...),
classification returns Block: the Generic-Block keyword match wins over the
allowlist match. -/
theorem keyword_blocks_despite_allowlist (url : String) (data : JSData) (now : Nat)
    (_hAllow : matchesAnyLowered (lowerStr url) CODE_INDEXING_PATTERNS = true)
    (hKeyword : matchesAnyLowered (lowerStr url) INTERCEPT_PATTERNS = true)
    (hEss : matchesAnyLowered (lowerStr url) ESSENTIAL_ENDPOINTS = false)
    (_hPrec : matchesAnyLowered (lowerStr url) PRECISE_TELEMETRY_ENDPOINTS = false)
    (hImp : matchesAnyRaw (lowerStr url) importantPatterns = false) :
    (shouldInterceptUrl initialCache url data now).1 = true := by
  rw [shouldInterceptUrl_initial_fst]
  simp [classifyUrl, hEss, hKeyword, hImp]

/-- C1, witness: the amended theorem applied to the address
`checkpoint-blobs-analytics` (allowlist pattern plus keyword, no essential,
precise or important pattern). -/
theorem keyword_blocks_despite_allowlist_witness :
    (shouldInterceptUrl initialCache "checkpoint-blobs-analytics" (.str "") 0).1 = true :=
  keyword_blocks_despite_allowlist "checkpoint-blobs-analytics" (.str "") 0
    (by decide) (by decide) (by decide) (by decide) (by decide)

/-! ## C2 -/

/-- C2: for every address that case-insensitively contains an Essential
pattern together with a Precise-Block (or any other block) pattern,
classification returns Allow (`false`): the Essential tier is checked first
and overrides every other tier. -/
theorem essential_always_allows (url : String) (data : JSData) (now : Nat)
    (hEss : matchesAnyLowered (lowerStr url) ESSENTIAL_ENDPOINTS = true)
    (_hBlock : matchesAnyLowered (lowerStr url) PRECISE_TELEMETRY_ENDPOINTS = true ∨
        matchesAnyLowered (lowerStr url) INTERCEPT_PATTERNS = true) :
    (shouldInterceptUrl initialCache url data now).1 = false := by
  rw [shouldInterceptUrl_initial_fst]
  simp [classifyUrl, hEss]

/-- C2, witness: `https://host/Analytics/subscription-info` contains the
Essential pattern `subscription-info` and the block patterns `analytics`
and `/analytics`, and is allowed. -/
theorem essential_always_allows_witness :
    (shouldInterceptUrl initialCache "https://host/Analytics/subscription-info" (.str "") 0).1 = false :=
  essential_always_allows "https://host/Analytics/subscription-info" (.str "") 0
    (by decide) (Or.inl (by decide))

/-! ## C3 -/

/-- C3, counterexample: the address `https://example.com/unknown-endpoint`
matches no Essential, Precise-Block or Allowlist pattern, and the payload
`analytics` contains a Generic-Block keyword, yet `shouldInterceptUrl`
returns Allow (`false`), not Block: the code never scans the payload for
keywords (it only digests it into the cache key). -/
theorem payload_keyword_not_blocked_counterexample :
    matchesAnyLowered (lowerStr "https://example.com/unknown-endpoint") ESSENTIAL_ENDPOINTS = false ∧
    matchesAnyLowered (lowerStr "https://example.com/unknown-endpoint") PRECISE_TELEMETRY_ENDPOINTS = false ∧
    matchesAnyLowered (lowerStr "https://example.com/unknown-endpoint") CODE_INDEXING_PATTERNS = false ∧
    matchesAnyLowered (lowerStr "analytics") INTERCEPT_PATTERNS = true ∧
    (shouldInterceptUrl initialCache "https://example.com/unknown-endpoint" (.str "analytics") 0).1 = false := by
  decide

/-- C3 (amended): the Generic-Block tier scans only the address, never the
payload.  For every request whose address matches no Essential,
Precise-Block or Allowlist pattern and also contains no Generic-Block
keyword, classification returns Allow even when the stringified payload
contains a Generic-Block keyword. -/
theorem payload_never_scanned_allow (url s : String) (now : Nat)
    (_hEss : matchesAnyLowered (lowerStr url) ESSENTIAL_ENDPOINTS = false)
    (_hPrec : matchesAnyLowered (lowerStr url) PRECISE_TELEMETRY_ENDPOINTS = false)
    (_hAllow : matchesAnyLowered (lowerStr url) CODE_INDEXING_PATTERNS = false)
    (hUrlKeyword : matchesAnyLowered (lowerStr url) INTERCEPT_PATTERNS = false)
    (_hPayload : matchesAnyLowered (lowerStr s) INTERCEPT_PATTERNS = true) :
    (shouldInterceptUrl initialCache url (.str s) now).1 = false := by
  rw [shouldInterceptUrl_initial_fst]
  unfold classifyUrl
  simp only [hUrlKeyword]
  split <;> rfl

/-- C3, witness: the amended theorem at the counterexample's input. -/
theorem payload_never_scanned_allow_witness :
    (shouldInterceptUrl initialCache "https://example.com/unknown-endpoint" (.str "analytics") 0).1 = false :=
  payload_never_scanned_allow "https://example.com/unknown-endpoint" "analytics" 0
    (by decide) (by decide) (by decide) (by decide) (by decide)

/-! ## C4 -/

/-- C4: (1) every address matching no pattern of any tier — Essential,
Precise-Block, Generic-Block or Allowlist — is allowed (fail open), which
covers the empty address; and (2) a non-string payload is treated exactly
like the empty-string payload (an absent payload defaults to `''` in the
source), so unknown traffic is never blocked. -/
theorem fail_open_default_allow :
    (∀ (url : String) (data : JSData) (now : Nat),
      matchesAnyLowered (lowerStr url) ESSENTIAL_ENDPOINTS = false →
      matchesAnyLowered (lowerStr url) PRECISE_TELEMETRY_ENDPOINTS = false →
      matchesAnyLowered (lowerStr url) INTERCEPT_PATTERNS = false →
      matchesAnyLowered (lowerStr url) CODE_INDEXING_PATTERNS = false →
      (shouldInterceptUrl initialCache url data now).1 = false) ∧
    (∀ (st : CacheState) (url : String) (now : Nat),
      shouldInterceptUrl st url .nonString now = shouldInterceptUrl st url (.str "") now) := by
  constructor
  · intro url data now _hEss _hPrec hKeyword _hAllow
    rw [shouldInterceptUrl_initial_fst]
    unfold classifyUrl
    simp only [hKeyword]
    split <;> rfl
  · intro st url now
    rfl

/-- C4, witness: the fail-open default applied to the empty address and to
`https://example.com/unknown-endpoint`, and payload normalization applied
at a concrete state. -/
theorem fail_open_default_allow_witness :
    (shouldInterceptUrl initialCache "" (.str "") 0).1 = false ∧
    (shouldInterceptUrl initialCache "https://example.com/unknown-endpoint" (.str "") 0).1 = false ∧
    shouldInterceptUrl initialCache "https://u.example" .nonString 0 =
      shouldInterceptUrl initialCache "https://u.example" (.str "") 0 :=
  ⟨fail_open_default_allow.1 "" (.str "") 0 (by decide) (by decide) (by decide) (by decide),
   fail_open_default_allow.1 "https://example.com/unknown-endpoint" (.str "") 0
     (by decide) (by decide) (by decide) (by decide),
   fail_open_default_allow.2 initialCache "https://u.example" 0⟩

/-! ## Cache lemmas -/

theorem mapGet_mapSet (k : String) (v : CacheEntry) (l : List (String × CacheEntry)) :
    mapGet k (mapSet k v l) = some v := by
  induction l with
  | nil => simp [mapGet, mapSet]
  | cons hd tl ih =>
      by_cases h : hd.1 = k
      · simp [mapGet, mapSet, h]
      · simpa [mapGet, mapSet, h] using ih

theorem mapGet_eq_none (k : String) (l : List (String × CacheEntry))
    (h : k ∉ l.map Prod.fst) : mapGet k l = none := by
  induction l with
  | nil => rfl
  | cons hd tl ih =>
      simp only [List.map_cons, List.mem_cons] at h
      push_neg at h
      have h1 : ¬hd.1 = k := fun hh => h.1 hh.symm
      simp [mapGet, h1, ih h.2]

theorem mapSet_of_not_mem (k : String) (v : CacheEntry) (l : List (String × CacheEntry))
    (h : k ∉ l.map Prod.fst) : mapSet k v l = l ++ [(k, v)] := by
  induction l with
  | nil => rfl
  | cons hd tl ih =>
      simp only [List.map_cons, List.mem_cons] at h
      push_neg at h
      have h1 : ¬hd.1 = k := fun hh => h.1 hh.symm
      simp [mapSet, h1, ih h.2]

theorem mapSet_length_le (k : String) (v : CacheEntry) (l : List (String × CacheEntry)) :
    (mapSet k v l).length ≤ l.length + 1 := by
  induction l with
  | nil => simp [mapSet]
  | cons hd tl ih =>
      by_cases h : hd.1 = k
      · simp [mapSet, h]
      · simp [mapSet, h]
        omega

theorem cacheEvict_cons (hd : String × CacheEntry) (l : List (String × CacheEntry)) :
    cacheEvict (hd :: l) = l := by
  rcases hd with ⟨k, v⟩
  simp [cacheEvict, mapDelete]

/-- `set` never changes the capacity field or the statistics. -/
theorem cacheSet_frame (st : CacheState) (url : String) (data : JSData) (d : Decision) (now : Nat) :
    (cacheSet st url data d now).maxCacheSize = st.maxCacheSize ∧
    (cacheSet st url data d now).hits = st.hits ∧
    (cacheSet st url data d now).misses = st.misses ∧
    (cacheSet st url data d now).totalRequests = st.totalRequests := by
  simp [cacheSet]

/-- One `set` keeps the size within the capacity bound (for any positive capacity). -/
theorem cacheSet_length_le (st : CacheState) (url : String) (data : JSData) (d : Decision)
    (now : Nat) (hcap : 1 ≤ st.maxCacheSize) (hle : st.cache.length ≤ st.maxCacheSize) :
    (cacheSet st url data d now).cache.length ≤ st.maxCacheSize := by
  show (mapSet (generateCacheKey url data) { decision := d, timestamp := now, url := url }
      (if st.cache.length ≥ st.maxCacheSize then cacheEvict st.cache else st.cache)).length ≤
    st.maxCacheSize
  by_cases hfull : st.cache.length ≥ st.maxCacheSize
  · rw [if_pos hfull]
    cases hc : st.cache with
    | nil => rw [hc] at hfull; simp at hfull; omega
    | cons hd tl =>
        rw [cacheEvict_cons]
        have h2 := mapSet_length_le (generateCacheKey url data)
          { decision := d, timestamp := now, url := url } tl
        rw [hc] at hle
        simp only [List.length_cons] at hle
        omega
  · rw [if_neg hfull]
    have h2 := mapSet_length_le (generateCacheKey url data)
      { decision := d, timestamp := now, url := url } st.cache
    omega

/-! ## Sequences of cache insertions -/

/-- Run a sequence of `URLClassificationCache.set` calls
(url, data, decision, timestamp). -/
def applySets (st : CacheState) (ops : List (String × JSData × Decision × Nat)) : CacheState :=
  ops.foldl (fun s op => cacheSet s op.1 op.2.1 op.2.2.1 op.2.2.2) st

/-- Insert a list of (url, decision) pairs, each with the empty-string
payload (so the cache key is the url itself), all at time `now`. -/
def insertAll (st : CacheState) (ops : List (String × Decision)) (now : Nat) : CacheState :=
  ops.foldl (fun s op => cacheSet s op.1 (.str "") op.2 now) st

/-- An empty cache whose `maxCacheSize` has been set to `n`. -/
def emptyCacheWithCapacity (n : Nat) : CacheState :=
  { cache := [], hits := 0, misses := 0, totalRequests := 0, maxCacheSize := n }

theorem generateCacheKey_empty_str (url : String) :
    generateCacheKey url (.str "") = url := rfl

theorem insertAll_cons (st : CacheState) (u : String) (d : Decision)
    (rest : List (String × Decision)) (now : Nat) :
    insertAll st ((u, d) :: rest) now = insertAll (cacheSet st u (.str "") d now) rest now := rfl

theorem applySets_bound (ops : List (String × JSData × Decision × Nat)) :
    ∀ st : CacheState, st.cache.length ≤ st.maxCacheSize → 1 ≤ st.maxCacheSize →
      (applySets st ops).cache.length ≤ st.maxCacheSize := by
  induction ops with
  | nil => intro st h _; exact h
  | cons op rest ih =>
      intro st h hcap
      have hstep := cacheSet_length_le st op.1 op.2.1 op.2.2.1 op.2.2.2 hcap h
      have hmax := (cacheSet_frame st op.1 op.2.1 op.2.2.1 op.2.2.2).1
      have := ih (cacheSet st op.1 op.2.1 op.2.2.1 op.2.2.2) (by rw [hmax]; exact hstep)
        (by rw [hmax]; exact hcap)
      rw [hmax] at this
      exact this

/-- Inserting pairwise-fresh keys into a cache with spare capacity appends
them in insertion order, without evicting anything. -/
theorem insertAll_fresh (now : Nat) :
    ∀ (ops : List (String × Decision)) (st : CacheState),
      (∀ u ∈ ops.map Prod.fst, u ∉ st.cache.map Prod.fst) →
      (ops.map Prod.fst).Nodup →
      st.cache.length + ops.length ≤ st.maxCacheSize →
      insertAll st ops now =
        { st with cache :=
            st.cache ++ ops.map fun op => (op.1, ⟨op.2, now, op.1⟩) } := by
  intro ops
  induction ops with
  | nil =>
      intro st _ _ _
      simp [insertAll]
  | cons op rest ih =>
      intro st hfresh hnd hlen
      rcases op with ⟨u, d⟩
      rw [insertAll_cons]
      have hu : u ∉ st.cache.map Prod.fst := by
        apply hfresh
        simp
      have hnotfull : ¬ st.cache.length ≥ st.maxCacheSize := by
        simp only [List.length_cons] at hlen
        omega
      have hset : cacheSet st u (.str "") d now =
          { st with cache := st.cache ++ [(u, ⟨d, now, u⟩)] } := by
        simp only [cacheSet, generateCacheKey_empty_str]
        rw [if_neg hnotfull, mapSet_of_not_mem u _ _ hu]
      rw [hset]
      have hnd' : (rest.map Prod.fst).Nodup := by
        simp only [List.map_cons, List.nodup_cons] at hnd
        exact hnd.2
      have hfresh' : ∀ x ∈ rest.map Prod.fst,
          x ∉ (st.cache ++ [(u, (⟨d, now, u⟩ : CacheEntry))]).map Prod.fst := by
        intro x hx
        simp only [List.map_append, List.map_cons, List.map_nil, List.mem_append,
          List.mem_singleton]
        push_neg
        refine ⟨hfresh x (by simp [hx]), ?_⟩
        simp only [List.map_cons, List.nodup_cons] at hnd
        intro hxu
        exact hnd.1 (hxu ▸ hx)
      have hlen' : (st.cache ++ [(u, (⟨d, now, u⟩ : CacheEntry))]).length + rest.length ≤
          st.maxCacheSize := by
        simp only [List.length_append, List.length_cons, List.length_nil] at hlen ⊢
        omega
      have := ih { st with cache := st.cache ++ [(u, ⟨d, now, u⟩)] } hfresh' hnd' hlen'
      rw [this]
      simp

theorem insertAll_append (st : CacheState) (a b : List (String × Decision)) (now : Nat) :
    insertAll st (a ++ b) now = insertAll (insertAll st a now) b now := by
  simp [insertAll, List.foldl_append]

theorem cacheSet_cache (st : CacheState) (url : String) (data : JSData) (d : Decision) (now : Nat) :
    (cacheSet st url data d now).cache =
      mapSet (generateCacheKey url data) { decision := d, timestamp := now, url := url }
        (if st.cache.length ≥ st.maxCacheSize then cacheEvict st.cache else st.cache) := rfl

/-- Inserting `n + 1` pairwise-distinct keys into an empty cache of capacity
`n ≥ 1` leaves exactly `n` entries, and the first-inserted key is gone. -/
theorem insert_capacity_plus_one (n now : Nat) (d0 : Decision) (u0 : String)
    (ops : List (String × Decision)) (hcap : 1 ≤ n) (hlen : ops.length = n)
    (hnd : (u0 :: ops.map Prod.fst).Nodup) :
    (insertAll (emptyCacheWithCapacity n) ((u0, d0) :: ops) now).cache.length = n ∧
    mapGet u0 (insertAll (emptyCacheWithCapacity n) ((u0, d0) :: ops) now).cache = none := by
  rcases List.eq_nil_or_concat ops with hnil | ⟨front, lst, rfl⟩
  · subst hnil
    simp at hlen
    omega
  · simp only [List.nodup_cons] at hnd
    obtain ⟨hu0, hndk⟩ := hnd
    simp only [List.concat_eq_append] at hlen hu0 hndk ⊢
    simp only [List.map_append, List.map_cons, List.map_nil] at hu0
    simp only [List.map_append, List.map_cons, List.map_nil] at hndk
    rw [List.nodup_append] at hndk
    obtain ⟨hndf, _, hdisj⟩ := hndk
    simp only [List.length_append, List.length_cons, List.length_nil] at hlen
    have hfrontlen : front.length + 1 = n := by omega
    have hst1 : cacheSet (emptyCacheWithCapacity n) u0 (.str "") d0 now =
        { emptyCacheWithCapacity n with cache := [(u0, ⟨d0, now, u0⟩)] } := by
      simp only [cacheSet, generateCacheKey_empty_str, emptyCacheWithCapacity]
      rw [if_neg (by simp only [List.length_nil]; omega)]
      rfl
    rw [insertAll_cons, hst1, insertAll_append]
    have hfr : insertAll
        { emptyCacheWithCapacity n with cache := [(u0, ⟨d0, now, u0⟩)] } front now =
        { emptyCacheWithCapacity n with cache :=
            [(u0, ⟨d0, now, u0⟩)] ++ front.map fun op => (op.1, ⟨op.2, now, op.1⟩) } := by
      apply insertAll_fresh
      · intro x hx
        simp only [emptyCacheWithCapacity, List.map_cons, List.map_nil, List.mem_singleton]
        intro hxu
        exact hu0 (by simp [← hxu, hx])
      · exact hndf
      · simp only [emptyCacheWithCapacity, List.length_cons, List.length_nil]
        omega
    rw [hfr]
    have hkeyfront : (front.map fun op => ((op.1 : String), (⟨op.2, now, op.1⟩ : CacheEntry))).map
        Prod.fst = front.map Prod.fst := by
      simp
    have hlstnot : lst.1 ∉ (front.map fun op =>
        ((op.1 : String), (⟨op.2, now, op.1⟩ : CacheEntry))).map Prod.fst := by
      rw [hkeyfront]
      intro hmem
      exact hdisj hmem (List.mem_singleton_self lst.1)
    have hfinal : insertAll
        { emptyCacheWithCapacity n with cache :=
            [(u0, ⟨d0, now, u0⟩)] ++ front.map fun op => (op.1, ⟨op.2, now, op.1⟩) } [lst] now =
        cacheSet
          { emptyCacheWithCapacity n with cache :=
              [(u0, ⟨d0, now, u0⟩)] ++ front.map fun op => (op.1, ⟨op.2, now, op.1⟩) }
          lst.1 (.str "") lst.2 now := rfl
    rw [hfinal, cacheSet_cache]
    rw [if_pos (by simp only [emptyCacheWithCapacity, List.length_append, List.length_cons,
      List.length_nil, List.length_map]; omega)]
    rw [List.singleton_append, cacheEvict_cons, generateCacheKey_empty_str,
      mapSet_of_not_mem _ _ _ hlstnot]
    constructor
    · simp only [List.length_append, List.length_map, List.length_cons, List.length_nil]
      omega
    · apply mapGet_eq_none
      simp only [List.map_append, hkeyfront, List.map_cons, List.map_nil, List.mem_append,
        List.mem_singleton]
      push_neg
      constructor
      · intro hmem
        exact hu0 (by simp [hmem])
      · intro heq
        exact hu0 (by simp [heq])

/-! ## C5 -/

/-- C5: (1) starting from the initial cache (capacity 1000), no sequence of
`set` operations ever pushes the entry count above 1000; and (2) inserting
`n + 1` entries with pairwise-distinct keys into an empty cache of capacity
`n ≥ 1` leaves exactly `n` entries with the first-inserted key absent
(FIFO eviction of the earliest-inserted entry, no promotion on hit). -/
theorem cache_bound_and_fifo_eviction :
    (∀ ops : List (String × JSData × Decision × Nat),
        (applySets initialCache ops).cache.length ≤ 1000) ∧
    (∀ (n now : Nat) (d0 : Decision) (u0 : String) (ops : List (String × Decision)),
        1 ≤ n → ops.length = n → (u0 :: ops.map Prod.fst).Nodup →
        (insertAll (emptyCacheWithCapacity n) ((u0, d0) :: ops) now).cache.length = n ∧
        mapGet u0 (insertAll (emptyCacheWithCapacity n) ((u0, d0) :: ops) now).cache = none) := by
  constructor
  · intro ops
    exact applySets_bound ops initialCache (by simp [initialCache]) (by simp [initialCache])
  · intro n now d0 u0 ops hcap hlen hnd
    exact insert_capacity_plus_one n now d0 u0 ops hcap hlen hnd

/-- C5, witness: a concrete insertion stays within the 1000-entry bound, and
inserting the three distinct keys `a`, `b`, `c` into an empty cache of
capacity 2 leaves two entries with `a` evicted. -/
theorem cache_bound_and_fifo_eviction_witness :
    (applySets initialCache [("a", .str "", ⟨true, "r"⟩, 5)]).cache.length ≤ 1000 ∧
    ((insertAll (emptyCacheWithCapacity 2)
        [("a", ⟨true, "r"⟩), ("b", ⟨false, "s"⟩), ("c", ⟨true, "t"⟩)] 7).cache.length = 2 ∧
      mapGet "a" (insertAll (emptyCacheWithCapacity 2)
        [("a", ⟨true, "r"⟩), ("b", ⟨false, "s"⟩), ("c", ⟨true, "t"⟩)] 7).cache = none) :=
  ⟨cache_bound_and_fifo_eviction.1 [("a", .str "", ⟨true, "r"⟩, 5)],
   cache_bound_and_fifo_eviction.2 2 7 ⟨true, "r"⟩ "a"
     [("b", ⟨false, "s"⟩), ("c", ⟨true, "t"⟩)] (by decide) (by decide) (by decide)⟩

/-! ## C6 -/

/-- C6: for every cache state, address, payload and decision, a `set`
followed by a `get` with the same address and payload returns the stored
decision unchanged. -/
theorem cache_set_get_roundtrip (st : CacheState) (url : String) (data : JSData)
    (d : Decision) (now : Nat) :
    Option.map CacheEntry.decision
      (cacheGet (cacheSet st url data d now) url data).1 = some d := by
  unfold cacheGet cacheSet
  simp [mapGet_mapSet]

/-! ## C7 -/

/-- C7, counterexample: a single `get` on the initial cache changes the
cache state — it bumps the `totalRequests` and `misses` counters — so `get`
does not leave the cache's entire state unchanged. -/
theorem cache_get_mutates_counters_counterexample :
    (cacheGet initialCache "a" (.str "")).2 ≠ initialCache ∧
    (cacheGet initialCache "a" (.str "")).2.totalRequests = 1 ∧
    initialCache.totalRequests = 0 := by
  decide

/-- C7 (amended): `get` never modifies the entry table or the capacity
bound; only the hit/miss statistics counters change. -/
theorem cache_get_preserves_entries (st : CacheState) (url : String) (data : JSData) :
    (cacheGet st url data).2.cache = st.cache ∧
    (cacheGet st url data).2.maxCacheSize = st.maxCacheSize := by
  unfold cacheGet
  cases h : mapGet (generateCacheKey url data) st.cache <;> simp [h]

/-! ## The deterministic synthesizer (`FeatureVectorSpoofer.calculateHash`) -/

/-- A lower-case hexadecimal digit. -/
def isLowerHexDigit (c : Char) : Bool :=
  decide (('0' ≤ c ∧ c ≤ '9') ∨ ('a' ≤ c ∧ c ≤ 'f'))

/-- The hex digit character for `n < 16` (lower case, as JS `toString(16)`). -/
def hexDigitChar (n : Nat) : Char :=
  if n < 10 then Char.ofNat (48 + n) else Char.ofNat (87 + n)

/-- The digits of `n.toString(16)` for a natural number `n`. -/
def toHexList (n : Nat) : List Char :=
  if n < 16 then [hexDigitChar n]
  else toHexList (n / 16) ++ [hexDigitChar (n % 16)]
termination_by n
decreasing_by
  exact Nat.div_lt_self (by omega) (by omega)

theorem hexDigitChar_isLower (n : Nat) (h : n < 16) :
    isLowerHexDigit (hexDigitChar n) = true := by
  interval_cases n <;> decide

theorem toHexList_ne_nil (n : Nat) : toHexList n ≠ [] := by
  unfold toHexList
  split <;> simp

theorem toHexList_hex (n : Nat) : ∀ c ∈ toHexList n, isLowerHexDigit c = true := by
  induction n using Nat.strong_induction_on with
  | _ n ih =>
      unfold toHexList
      split
      · rename_i h
        intro c hc
        simp only [List.mem_singleton] at hc
        subst hc
        exact hexDigitChar_isLower n h
      · rename_i h
        intro c hc
        rcases List.mem_append.mp hc with hc | hc
        · exact ih (n / 16) (Nat.div_lt_self (by omega) (by omega)) c hc
        · simp only [List.mem_singleton] at hc
          subst hc
          exact hexDigitChar_isLower _ (Nat.mod_lt _ (by omega))

/-- JS `parseInt(ch, 16)` on a single character, with the engine's `NaN`
coerced to `0` by the subsequent `^` (ToInt32(NaN) = 0). -/
def hexVal (c : Char) : Nat :=
  if 48 ≤ c.toNat ∧ c.toNat ≤ 57 then c.toNat - 48
  else if 97 ≤ c.toNat ∧ c.toNat ≤ 102 then c.toNat - 87
  else if 65 ≤ c.toNat ∧ c.toNat ≤ 70 then c.toNat - 55
  else 0

/-- `index.toString(16).padStart(2, '0')`. -/
def padStartTwo (l : List Char) : List Char :=
  List.replicate (2 - l.length) '0' ++ l

/-- The hex fragment appended by one iteration of the extension loop of
`calculateHash` at position `p`:
`hex(parseInt(sessionSeed[p % len], 16) XOR parseInt(indexHex[p % 2], 16))`. -/
def nextChar (sessionSeed : List Char) (index : Nat) (p : Nat) : List Char :=
  let seedChar := sessionSeed.getD (p % sessionSeed.length) '0'
  let indexChar := (padStartTwo (toHexList index)).getD (p % 2) '0'
  toHexList (hexVal seedChar ^^^ hexVal indexChar)

theorem nextChar_ne_nil (sessionSeed : List Char) (index p : Nat) :
    nextChar sessionSeed index p ≠ [] :=
  toHexList_ne_nil _

/-- The `while (extendedHash.length < 64)` loop of `calculateHash`. -/
def extendHash (sessionSeed : List Char) (index : Nat) (eh : List Char) : List Char :=
  if eh.length < 64 then
    extendHash sessionSeed index (eh ++ nextChar sessionSeed index eh.length)
  else eh
termination_by 64 - eh.length
decreasing_by
  have h1 : 0 < (nextChar sessionSeed index eh.length).length :=
    List.length_pos.mpr (nextChar_ne_nil _ _ _)
  simp only [List.length_append]
  omega

theorem extendHash_length (sessionSeed : List Char) (index : Nat) (eh : List Char) :
    64 ≤ (extendHash sessionSeed index eh).length := by
  induction eh using extendHash.induct sessionSeed index with
  | case1 x h ih =>
      rw [extendHash, if_pos h]
      exact ih
  | case2 x h =>
      rw [extendHash, if_neg h]
      omega

theorem extendHash_hex (sessionSeed : List Char) (index : Nat) (eh : List Char) :
    (∀ c ∈ eh, isLowerHexDigit c = true) →
    ∀ c ∈ extendHash sessionSeed index eh, isLowerHexDigit c = true := by
  induction eh using extendHash.induct sessionSeed index with
  | case1 x hlt ih =>
      intro h
      rw [extendHash, if_pos hlt]
      apply ih
      intro c hc
      rcases List.mem_append.mp hc with hc | hc
      · exact h c hc
      · exact toHexList_hex _ c hc
  | case2 x hlt =>
      intro h
      rw [extendHash, if_neg hlt]
      exact h

/-- JSON string escaping of one character (`JSON.stringify` on a string). -/
def jsonEscapeChar (c : Char) : List Char :=
  if c = '"' then ['\\', '"']
  else if c = '\\' then ['\\', '\\']
  else if c = '\n' then ['\\', 'n']
  else if c = '\r' then ['\\', 'r']
  else if c = '\t' then ['\\', 't']
  else if c.toNat = 8 then ['\\', 'b']
  else if c.toNat = 12 then ['\\', 'f']
  else if c.toNat < 32 then
    ['\\', 'u', '0', '0', hexDigitChar (c.toNat / 16), hexDigitChar (c.toNat % 16)]
  else [c]

/-- `JSON.stringify(data)` for a string-valued seed. -/
def jsonStringify (s : String) : String :=
  ⟨'"' :: (s.data.map jsonEscapeChar).flatten ++ ['"']⟩

/-- `FeatureVectorSpoofer.calculateHash(data, index)` (`src/1.js`, lines
903-934), with the seed data modelled as the string value it stringifies
and the main session id passed explicitly (the source reads it from
`SessionManager.getMainSessionId()`).  The rolling hash runs over
`index + ":" + JSON.stringify(data)`, its absolute value is printed in
hex, and the result is extended to 64 characters from the session seed
(the session id with dashes removed, first 8 characters) and the index. -/
def calculateHash (data : String) (index : Nat) (sessionId : String) : String :=
  let saltedData := toString index ++ ":" ++ jsonStringify data
  let hash := saltedData.data.foldl (fun h c => hashStep h c.toNat) 0
  let baseHash := toHexList hash.natAbs
  let sessionSeed := (sessionId.data.filter fun c => c ≠ '-').take 8
  ⟨(extendHash sessionSeed index baseHash).take 64⟩

/-- `FeatureVectorSpoofer.calculateVersionHash(data)` (`src/1.js`, lines
941-944): the index-12 hash with the fixed `v1#` version tag. -/
def calculateVersionHash (data : String) (sessionId : String) : String :=
  "v1#" ++ calculateHash data 12 sessionId


/-- The extension always yields exactly 64 characters, all hex, once
truncated — for any session seed, index and all-hex base. -/
theorem extendHash_take_shape (sessionSeed : List Char) (index : Nat) (base : List Char)
    (hbase : ∀ c ∈ base, isLowerHexDigit c = true) :
    ((extendHash sessionSeed index base).take 64).length = 64 ∧
    ∀ c ∈ (extendHash sessionSeed index base).take 64, isLowerHexDigit c = true := by
  constructor
  · rw [List.length_take]
    have := extendHash_length sessionSeed index base
    omega
  · intro c hc
    exact extendHash_hex sessionSeed index base hbase c (List.mem_of_mem_take hc)

/-! ## C8 -/

/-- C8: for every seed data value, index and session id, `calculateHash`
returns exactly 64 characters, each a (lower-case) hexadecimal digit, and
`calculateVersionHash` is exactly `"v1#"` followed by the index-12 hash. -/
theorem synthesizer_length_and_hex (data : String) (index : Nat) (sessionId : String) :
    (calculateHash data index sessionId).length = 64 ∧
    (∀ c ∈ (calculateHash data index sessionId).data, isLowerHexDigit c = true) ∧
    calculateVersionHash data sessionId = "v1#" ++ calculateHash data 12 sessionId := by
  have h := extendHash_take_shape ((sessionId.data.filter fun c => c ≠ '-').take 8) index
    (toHexList (((toString index ++ ":" ++ jsonStringify data).data.foldl
      (fun h c => hashStep h c.toNat) 0).natAbs)) (toHexList_hex _)
  exact ⟨h.1, h.2, rfl⟩

/-! ## C9 -/

/-- C9: the synthesizer is a deterministic function of the seed data, the
index and the main session id — two calls with identical inputs and the
same session context return byte-identical strings. -/
theorem synthesizer_deterministic (d1 d2 : String) (i1 i2 : Nat) (s1 s2 : String)
    (hd : d1 = d2) (hi : i1 = i2) (hs : s1 = s2) :
    calculateHash d1 i1 s1 = calculateHash d2 i2 s2 := by
  rw [hd, hi, hs]

/-- C9, witness: two calls at a concrete seed, index and session id. -/
theorem synthesizer_deterministic_witness :
    calculateHash "fake-device" 12 "a1b2c3d4-e5f6-7890-abcd-ef0123456789" =
      calculateHash "fake-device" 12 "a1b2c3d4-e5f6-7890-abcd-ef0123456789" :=
  synthesizer_deterministic "fake-device" "fake-device" 12 12
    "a1b2c3d4-e5f6-7890-abcd-ef0123456789" "a1b2c3d4-e5f6-7890-abcd-ef0123456789"
    rfl rfl rfl

/-! ## The fetch interception shim (`NetworkInterceptor.interceptFetchDecrypted`) -/

/-- `SmartDataClassifier.isEssentialEndpoint(context)` (`src/1.js`, lines 1352-1369). -/
def isEssentialEndpoint (context : String) : Bool :=
  if context = "" then false
  else matchesAnyLowered (lowerStr context) ESSENTIAL_ENDPOINTS

/-- `SmartDataClassifier.isPreciseTelemetryEndpoint(context)` (lines 1375-1392). -/
def isPreciseTelemetryEndpoint (context : String) : Bool :=
  if context = "" then false
  else matchesAnyLowered (lowerStr context) PRECISE_TELEMETRY_ENDPOINTS

/-- `SmartDataClassifier.isTelemetryData(data, context)` (lines 1420-1438), for
the string-valued `data` the fetch shim passes (`options.body || ''`). -/
def isTelemetryData (data context : String) : Bool :=
  if data = "" then false
  else TELEMETRY_PATTERNS.any fun p =>
    strContains (lowerStr data) (lowerStr p) || strContains (lowerStr context) (lowerStr p)

/-- `SmartDataClassifier.isCodeIndexingRelated(data, context)` (lines 1398-1414). -/
def isCodeIndexingRelated (data context : String) : Bool :=
  if data = "" then false
  else CODE_INDEXING_PATTERNS.any fun p =>
    strContains (lowerStr data) (lowerStr p) || strContains (lowerStr context) (lowerStr p)

/-- `SmartDataClassifier.shouldInterceptUpload(data, context)` (lines 1450-1479). -/
def shouldInterceptUpload (data context : String) : Bool :=
  if isEssentialEndpoint context then false
  else if isPreciseTelemetryEndpoint context then true
  else if isTelemetryData data context then true
  else if isCodeIndexingRelated data context then false
  else false

/-- `FeatureVectorSpoofer.isFeatureVectorEndpoint(url)` (lines 1280-1288). -/
def isFeatureVectorEndpoint (url : String) : Bool :=
  if !enableFeatureVectorSpoofer then false
  else if url = "" then false
  else strContains (lowerStr url) "report-feature-vector"

/-- The fixed body of the Segment.io mock response,
`'\x7b"success": true, "batch": \x7b"sent": true\x7d\x7d'`. -/
def segmentBody : String :=
  "\x7b\"success\": true, \"batch\": \x7b\"sent\": true\x7d\x7d"

/-- The minimal empty-object body `"\x7b\x7d"` of the generic mock response. -/
def emptyJsonBody : String := "\x7b\x7d"

/-- The observable effect of one call through the wrapped `global.fetch`:
either a real network call is forwarded (possibly with a spoofed body), or
a fabricated response with the given `ok`, `status` and body text is
returned without any network activity. -/
inductive FetchOutcome where
  | forwarded (spoofedBody : Bool)
  | fabricated (ok : Bool) (status : Nat) (body : String)
deriving DecidableEq, Repr

/-- The wrapped `global.fetch` (`src/1.js`, lines 6172-6330), branch by
branch: feature-vector endpoints forward a real call with a rewritten
body; `shouldInterceptUpload` returns a mock `200` response with body
`{}`; Segment.io-matching addresses (raw, case-sensitive `includes`)
return a mock `200` response with the fixed Segment body;
`shouldInterceptUrl` returns the mock `200` `{}` response; everything else
forwards the real call (after session-id header substitution, which does
not affect the outcome modelled here). -/
def fetchShim (st : CacheState) (url body : String) (now : Nat) : FetchOutcome × CacheState :=
  if isFeatureVectorEndpoint url then (.forwarded true, st)
  else if shouldInterceptUpload body url then (.fabricated true 200 emptyJsonBody, st)
  else if strContains url "segment.io" || strContains url "api.segment.io" ||
      strContains url "/v1/batch" || strContains url "/v1/track" then
    (.fabricated true 200 segmentBody, st)
  else
    let r := shouldInterceptUrl st url (.str body) now
    if r.1 then (.fabricated true 200 emptyJsonBody, r.2)
    else (.forwarded false, r.2)

/-- A URL containing `report-feature-vector` matches the Essential tier
(the pattern is the first `ESSENTIAL_ENDPOINTS` entry). -/
theorem essential_of_feature_vector (u : String)
    (h : strContains u "report-feature-vector" = true) :
    matchesAnyLowered u ESSENTIAL_ENDPOINTS = true := by
  apply List.any_eq_true.mpr
  refine ⟨"report-feature-vector", by decide, ?_⟩
  have hl : lowerStr "report-feature-vector" = "report-feature-vector" := by decide
  rw [hl]
  exact h

/-! ## C10 -/

/-- C10, counterexample: `https://x.com/v1/batch` is classified as
intercepted (`/v1/batch` is a block pattern), and the shim does fabricate a
success response (`ok`, status 200) without a network call — but its body
is the fixed Segment success object, not the minimal empty JSON object the
claim requires. -/
theorem block_segment_body_counterexample :
    (shouldInterceptUrl initialCache "https://x.com/v1/batch" (.str "") 0).1 = true ∧
    (fetchShim initialCache "https://x.com/v1/batch" "" 0).1 =
      .fabricated true 200 segmentBody ∧
    segmentBody ≠ emptyJsonBody := by
  decide

/-- C10 (amended): for every URL classified as intercepted
(`shouldInterceptUrl` returns `true` from the initial cache), the fetch
shim makes no real network call and returns a fabricated response with
`ok = true` and status `200`; the body is the minimal empty JSON object
except on the Segment.io special-case branch (addresses containing
`segment.io`, `api.segment.io`, `/v1/batch` or `/v1/track`), whose body is
a fixed Segment success object. -/
theorem block_decision_reports_success (url body : String) (now : Nat)
    (h : (shouldInterceptUrl initialCache url (.str body) now).1 = true) :
    (fetchShim initialCache url body now).1 = .fabricated true 200 emptyJsonBody ∨
    (fetchShim initialCache url body now).1 = .fabricated true 200 segmentBody := by
  unfold fetchShim
  by_cases hfv : isFeatureVectorEndpoint url = true
  · exfalso
    rw [shouldInterceptUrl_initial_fst] at h
    have hcontains : strContains (lowerStr url) "report-feature-vector" = true := by
      by_cases hurl : url = ""
      · rw [hurl] at hfv
        simp [isFeatureVectorEndpoint, enableFeatureVectorSpoofer] at hfv
      · simp [isFeatureVectorEndpoint, enableFeatureVectorSpoofer, hurl] at hfv
        exact hfv
    have hess := essential_of_feature_vector (lowerStr url) hcontains
    simp [classifyUrl, hess] at h
  · rw [if_neg hfv]
    by_cases hup : shouldInterceptUpload body url = true
    · rw [if_pos hup]
      left
      rfl
    · rw [if_neg hup]
      by_cases hseg : (strContains url "segment.io" || strContains url "api.segment.io" ||
          strContains url "/v1/batch" || strContains url "/v1/track") = true
      · rw [if_pos hseg]
        right
        rfl
      · rw [if_neg hseg]
        simp [h]

/-- C10, witness: the amended theorem at the concrete blocked address
`https://telemetry.example.com/analytics`. -/
theorem block_decision_reports_success_witness :
    (fetchShim initialCache "https://telemetry.example.com/analytics" "" 0).1 =
      .fabricated true 200 emptyJsonBody ∨
    (fetchShim initialCache "https://telemetry.example.com/analytics" "" 0).1 =
      .fabricated true 200 segmentBody :=
  block_decision_reports_success "https://telemetry.example.com/analytics" "" 0 (by decide)
